import Mathlib

/-!
Shallow embedding of the permission / role / claims authorization core of
the `revelation-user` crate: `src/permissions.rs`, `src/role.rs` and
`src/entity/claims.rs`.  Machine integers (`u32`, `u64`, `usize`) are
modelled as `Nat` (or `Int` for `i64`), with explicit `% 2^32` masking at
the one place the Rust code performs a truncating cast.  The ambient
wall-clock read in `Claims::is_expired` is modelled by passing the current
time as an explicit argument.
-/

/-- Bitflag permission set backed by a 32-bit unsigned integer
(`pub struct Permissions: u32` in `src/permissions.rs`). -/
structure Permissions where
  bits : Nat
deriving DecidableEq

namespace Permissions

/-- `const READ = 0x0001`. -/
def READ : Permissions := ⟨0x0001⟩

/-- `const WRITE = 0x0002`. -/
def WRITE : Permissions := ⟨0x0002⟩

/-- `const DELETE = 0x0004`. -/
def DELETE : Permissions := ⟨0x0004⟩

/-- `const ADMIN = 0x0008`. -/
def ADMIN : Permissions := ⟨0x0008⟩

/-- `const MANAGE_USERS = 0x0010`. -/
def MANAGE_USERS : Permissions := ⟨0x0010⟩

/-- `const MANAGE_ROLES = 0x0020`. -/
def MANAGE_ROLES : Permissions := ⟨0x0020⟩

/-- `const BILLING = 0x0040`. -/
def BILLING : Permissions := ⟨0x0040⟩

/-- `const AUDIT = 0x0080`. -/
def AUDIT : Permissions := ⟨0x0080⟩

/-- `const EXPORT = 0x0100`. -/
def EXPORT : Permissions := ⟨0x0100⟩

/-- `const IMPORT = 0x0200`. -/
def IMPORT : Permissions := ⟨0x0200⟩

/-- `const API_ACCESS = 0x0400`. -/
def API_ACCESS : Permissions := ⟨0x0400⟩

/-- `const PREMIUM = 0x0800`. -/
def PREMIUM : Permissions := ⟨0x0800⟩

/-- Bitwise union, the `|` operator of the bitflags type. -/
def or (a b : Permissions) : Permissions := ⟨a.bits ||| b.bits⟩

/-- `const VIEWER = READ` preset (an alias, not a new bit). -/
def VIEWER : Permissions := READ

/-- `const EDITOR = READ | WRITE` preset. -/
def EDITOR : Permissions := READ.or WRITE

/-- `const MANAGER = READ | WRITE | DELETE | MANAGE_USERS` preset. -/
def MANAGER : Permissions := ((READ.or WRITE).or DELETE).or MANAGE_USERS

/-- `Permissions::empty()`: the zero value. -/
def empty : Permissions := ⟨0⟩

/-- `Permissions::all()`: the union of every named bit (the presets are
aliases of subsets of these bits and contribute nothing new). -/
def all : Permissions :=
  ((((((((((READ.or WRITE).or DELETE).or ADMIN).or MANAGE_USERS).or
      MANAGE_ROLES).or BILLING).or AUDIT).or EXPORT).or IMPORT).or
      API_ACCESS).or PREMIUM

/-- `Permissions::contains(other)`: every bit of `other` is set in `self`
(bitflags semantics: `self.bits & other.bits == other.bits`). -/
def contains (a b : Permissions) : Bool := a.bits &&& b.bits == b.bits

/-- `Permissions::intersects(other)`: at least one bit is shared
(bitflags semantics: `self.bits & other.bits != 0`). -/
def intersects (a b : Permissions) : Bool := a.bits &&& b.bits != 0

/-- `Permissions::is_empty()`. -/
def is_empty (a : Permissions) : Bool := a.bits == 0

/-- `Permissions::as_u32()`: the raw bits value. -/
def as_u32 (a : Permissions) : Nat := a.bits

/-- bitflags `Permissions::from_bits_truncate`: keep only the named bits. -/
def from_bits_truncate (bits : Nat) : Permissions := ⟨bits &&& all.bits⟩

/-- bitflags `Permissions::from_bits`: `None` when any bit falls outside
the named union. -/
def from_bits (bits : Nat) : Option Permissions :=
  if bits &&& all.bits = bits then some ⟨bits⟩ else none

/-- `Permissions::from_bits_checked` (delegates to `from_bits`). -/
def from_bits_checked (bits : Nat) : Option Permissions := from_bits bits

/-- `Permissions::from_bits_truncating` (delegates to
`from_bits_truncate`). -/
def from_bits_truncating (bits : Nat) : Permissions := from_bits_truncate bits

/-- A `Permissions` value is valid when all of its bits lie inside the
named union; every value the Rust constructors can build satisfies this. -/
def Valid (p : Permissions) : Prop := p.bits &&& all.bits = p.bits

instance (p : Permissions) : Decidable p.Valid := by
  unfold Valid
  infer_instance

end Permissions

/-- The three-tier standard role enum (`pub enum RUserRole` in
`src/role.rs`). -/
inductive RUserRole
  | User
  | Premium
  | Admin
deriving DecidableEq

namespace RUserRole

/-- `RUserRole::is_admin`: `matches!(self, Self::Admin)`. -/
def is_admin : RUserRole → Bool
  | .Admin => true
  | _ => false

/-- `RUserRole::is_premium`: `matches!(self, Self::Premium | Self::Admin)`. -/
def is_premium : RUserRole → Bool
  | .Premium => true
  | .Admin => true
  | .User => false

/-- `RUserRole::is_user`: `matches!(self, Self::User)`. -/
def is_user : RUserRole → Bool
  | .User => true
  | _ => false

/-- `RUserRole::as_str`. -/
def as_str : RUserRole → String
  | .User => "user"
  | .Premium => "premium"
  | .Admin => "admin"

/-- `impl Role for RUserRole`, method `permissions` (the fixed table in
`src/role.rs`). -/
def permissions : RUserRole → Permissions
  | .User => Permissions.READ.or Permissions.API_ACCESS
  | .Premium =>
      (((Permissions.READ.or Permissions.WRITE).or
        Permissions.API_ACCESS).or Permissions.PREMIUM).or Permissions.EXPORT
  | .Admin => Permissions.all

end RUserRole

/-- The `Role` trait of `src/permissions.rs`: two primitive methods. -/
class Role (α : Type) where
  permissions : α → Permissions
  name : α → String

namespace Role

/-- Trait default `Role::can`: `self.permissions().contains(permission)`. -/
def can {α : Type} [Role α] (r : α) (permission : Permissions) : Bool :=
  (Role.permissions r).contains permission

/-- Trait default `Role::can_all`: `self.permissions().contains(permissions)`. -/
def can_all {α : Type} [Role α] (r : α) (ps : Permissions) : Bool :=
  (Role.permissions r).contains ps

/-- Trait default `Role::can_any`: `self.permissions().intersects(permissions)`. -/
def can_any {α : Type} [Role α] (r : α) (ps : Permissions) : Bool :=
  (Role.permissions r).intersects ps

/-- Trait default `Role::is_admin`: `self.can(Permissions::ADMIN)`. -/
def is_admin {α : Type} [Role α] (r : α) : Bool :=
  can r Permissions.ADMIN

/-- Trait default `Role::is_premium`: `self.can(Permissions::PREMIUM)`. -/
def is_premium {α : Type} [Role α] (r : α) : Bool :=
  can r Permissions.PREMIUM

end Role

instance : Role RUserRole where
  permissions := RUserRole.permissions
  name := RUserRole.as_str

/-- Opaque subject identifier (`Uuid` in the Rust code; never inspected by
the authorization logic, so any value type serves). -/
abbrev Uuid := Nat

/-- JWT claims payload (`pub struct Claims` in `src/entity/claims.rs`). -/
structure Claims where
  sub : Uuid
  role : RUserRole
  exp : Nat
  iat : Option Nat
  permissions : Option Permissions
deriving DecidableEq

namespace Claims

/-- `Claims::new`: `iat` and `permissions` default to absent. -/
def new (sub : Uuid) (role : RUserRole) (exp : Nat) : Claims :=
  { sub := sub, role := role, exp := exp, iat := none, permissions := none }

/-- `Claims::with_iat`. -/
def with_iat (sub : Uuid) (role : RUserRole) (exp : Nat) (iat : Nat) : Claims :=
  { sub := sub, role := role, exp := exp, iat := some iat, permissions := none }

/-- `Claims::with_permissions`: sets the permission override. -/
def with_permissions (sub : Uuid) (role : RUserRole) (exp : Nat)
    (ps : Permissions) : Claims :=
  { sub := sub, role := role, exp := exp, iat := none, permissions := some ps }

/-- `Claims::user_id`: returns `sub`. -/
def user_id (c : Claims) : Uuid := c.sub

/-- `Claims::is_expired`: `self.exp < now`, with the ambient wall-clock
read (`SystemTime::now` as seconds since the epoch, `unwrap_or(0)`)
modelled as the explicit argument `now`. -/
def is_expired (c : Claims) (now : Nat) : Bool := c.exp < now

/-- `Claims::is_admin`: delegates to the role, `self.role.is_admin()`. -/
def is_admin (c : Claims) : Bool := c.role.is_admin

/-- `Claims::is_premium`: delegates to the role, `self.role.is_premium()`. -/
def is_premium (c : Claims) : Bool := c.role.is_premium

/-- `Claims::effective_permissions`:
`self.permissions.unwrap_or_else(|| self.role.permissions())`. -/
def effective_permissions (c : Claims) : Permissions :=
  match c.permissions with
  | some p => p
  | none => c.role.permissions

/-- `Claims::can`: `self.effective_permissions().contains(permission)`. -/
def can (c : Claims) (permission : Permissions) : Bool :=
  c.effective_permissions.contains permission

/-- `Claims::can_all`: `self.effective_permissions().contains(permissions)`. -/
def can_all (c : Claims) (ps : Permissions) : Bool :=
  c.effective_permissions.contains ps

/-- `Claims::can_any`: `self.effective_permissions().intersects(permissions)`. -/
def can_any (c : Claims) (ps : Permissions) : Bool :=
  c.effective_permissions.intersects ps

end Claims

/-- C1: with an override `some O`, `effective_permissions` returns exactly
`O` (never the union with, nor the role's own permissions); with no
override it returns `role.permissions()`.  A concrete instance shows the
result differs from both the union and the role default when they
disagree. -/
theorem effective_permissions_override_replaces :
    (∀ (sub : Uuid) (role : RUserRole) (exp : Nat) (iat : Option Nat)
        (O : Permissions),
        (Claims.mk sub role exp iat (some O)).effective_permissions = O) ∧
    (∀ (sub : Uuid) (role : RUserRole) (exp : Nat) (iat : Option Nat),
        (Claims.mk sub role exp iat none).effective_permissions =
          role.permissions) ∧
    ((Claims.with_permissions 0 RUserRole.Admin 0
        Permissions.READ).effective_permissions = Permissions.READ ∧
      Permissions.READ ≠ Permissions.READ.or RUserRole.Admin.permissions ∧
      Permissions.READ ≠ RUserRole.Admin.permissions) := by
  refine ⟨fun _ _ _ _ _ => rfl, fun _ _ _ _ => rfl, rfl, ?_, ?_⟩ <;> decide

/-- C2: `can` / `can_all` / `can_any` on claims delegate to
`effective_permissions()` (not to `role.permissions()`); a plain
`Claims::new(sub, User, exp)` cannot `ADMIN`, while the same claims built
with a permission override containing `ADMIN` can, though the role is
still `User`. -/
theorem claims_can_delegates_to_effective :
    (∀ (c : Claims) (p : Permissions),
        c.can p = c.effective_permissions.contains p ∧
        c.can_all p = c.effective_permissions.contains p ∧
        c.can_any p = c.effective_permissions.intersects p) ∧
    (∀ (sub : Uuid) (exp : Nat),
        (Claims.new sub RUserRole.User exp).can Permissions.ADMIN = false) ∧
    (∀ (sub : Uuid) (exp : Nat) (O : Permissions),
        O.contains Permissions.ADMIN = true →
        (Claims.with_permissions sub RUserRole.User exp O).can
          Permissions.ADMIN = true) := by
  refine ⟨fun _ _ => ⟨rfl, rfl, rfl⟩, fun sub exp => ?_, fun _ _ _ h => h⟩
  show RUserRole.User.permissions.contains Permissions.ADMIN = false
  decide

/-- Witness for C2 at `sub = 0`, `exp = 0`, override `ADMIN`. -/
theorem claims_can_delegates_to_effective_witness :
    (Claims.with_permissions 0 RUserRole.User 0 Permissions.ADMIN).can
      Permissions.ADMIN = true :=
  claims_can_delegates_to_effective.2.2 0 0 Permissions.ADMIN (by decide)

/-- C3: the fixed role permission table — `User ↦ READ | API_ACCESS`
(bits 0x401), `Premium ↦ READ | WRITE | API_ACCESS | PREMIUM | EXPORT`
(bits 0xD03), `Admin ↦` the union of all named bits (0xFFF) — and the
resulting containment chain Admin ⊇ Premium ⊇ User. -/
theorem standard_role_permission_table :
    RUserRole.User.permissions = Permissions.READ.or Permissions.API_ACCESS ∧
    RUserRole.User.permissions.bits = 0x401 ∧
    RUserRole.Premium.permissions =
      (((Permissions.READ.or Permissions.WRITE).or
        Permissions.API_ACCESS).or Permissions.PREMIUM).or
        Permissions.EXPORT ∧
    RUserRole.Premium.permissions.bits = 0xD03 ∧
    RUserRole.Admin.permissions = Permissions.all ∧
    RUserRole.Admin.permissions.bits = 0xFFF ∧
    RUserRole.Admin.permissions.contains RUserRole.Premium.permissions =
      true ∧
    RUserRole.Premium.permissions.contains RUserRole.User.permissions =
      true := by
  decide

/-- C9: `Claims::is_admin` and `Claims::is_premium` read only the role and
ignore the override: an Admin claims value whose override lacks `ADMIN`
still has `is_admin = true` yet `can ADMIN = false`, and a User claims
value whose override grants `ADMIN` has `is_admin = false` yet
`can ADMIN = true`. -/
theorem claims_role_checks_ignore_override :
    (∀ c : Claims,
        c.is_admin = c.role.is_admin ∧ c.is_premium = c.role.is_premium) ∧
    ((Claims.with_permissions 0 RUserRole.Admin 0
        Permissions.READ).is_admin = true ∧
      (Claims.with_permissions 0 RUserRole.Admin 0 Permissions.READ).can
        Permissions.ADMIN = false) ∧
    ((Claims.with_permissions 0 RUserRole.User 0
        Permissions.ADMIN).is_admin = false ∧
      (Claims.with_permissions 0 RUserRole.User 0 Permissions.ADMIN).can
        Permissions.ADMIN = true) := by
  refine ⟨fun c => ⟨rfl, rfl⟩, ⟨?_, ?_⟩, ⟨?_, ?_⟩⟩ <;> decide

/-- C10: for every `RUserRole` variant, the inherent variant-match
definitions of `is_admin` / `is_premium` agree with the permission-derived
trait defaults (`can ADMIN` / `can PREMIUM` over the role's permission
table). -/
theorem role_inherent_checks_match_trait_defaults :
    ∀ r : RUserRole,
      r.is_admin = Role.is_admin r ∧ r.is_premium = Role.is_premium r := by
  intro r
  cases r <;> exact ⟨by decide, by decide⟩

/-- Serde `Serialize` for `Permissions`:
`serializer.serialize_u32(self.bits())` — the wire form is the raw bits as
a JSON number. -/
def Permissions.serialize (p : Permissions) : Nat := p.bits

/-- `PermissionsVisitor::visit_u64`: casts the value to `u32`
(`value as u32`, i.e. `% 2^32`) and validates with `Permissions::from_bits`;
the error message interpolates the original `u64` value. -/
def visit_u64 (value : Nat) : Except String Permissions :=
  match Permissions.from_bits (value % 4294967296) with
  | some p => Except.ok p
  | none => Except.error ("invalid permission bits: " ++ toString value)

/-- `PermissionsVisitor::visit_i64`: negative values are rejected with a
dedicated message, other values re-dispatch to `visit_u64`. -/
def visit_i64 (value : Int) : Except String Permissions :=
  if value < 0 then Except.error "permissions cannot be negative"
  else visit_u64 value.toNat

/-- serde_json dispatch for a JSON integer: a non-negative integer is
delivered through `visit_u64`, a negative one through `visit_i64`. -/
def deserialize_number (n : Int) : Except String Permissions :=
  if 0 ≤ n then visit_u64 n.toNat else visit_i64 n

/-- A valid permission value keeps all bits inside the named union,
hence below 0x1000. -/
theorem valid_bits_le (p : Permissions) (h : p.Valid) : p.bits ≤ 4095 := by
  have hall : Permissions.all.bits = 4095 := by decide
  have hle : p.bits &&& Permissions.all.bits ≤ Permissions.all.bits :=
    Nat.and_le_right
  rw [h, hall] at hle
  exact hle

/-- C6: `is_expired` is exactly `exp < now` with no leeway — claims with
`exp = now - 1` are expired, claims with `exp = now + 3600` are not. -/
theorem claims_is_expired_exact_boundary :
    (∀ (c : Claims) (now : Nat), c.is_expired now = true ↔ c.exp < now) ∧
    (∀ (sub : Uuid) (role : RUserRole) (now : Nat), 1 ≤ now →
        (Claims.new sub role (now - 1)).is_expired now = true) ∧
    (∀ (sub : Uuid) (role : RUserRole) (now : Nat),
        (Claims.new sub role (now + 3600)).is_expired now = false) := by
  refine ⟨fun c now => ?_, fun sub role now h => ?_, fun sub role now => ?_⟩
  · simp [Claims.is_expired]
  · simp only [Claims.is_expired, Claims.new, decide_eq_true_eq]
    omega
  · simp only [Claims.is_expired, Claims.new, decide_eq_false_iff_not]
    omega

/-- Witness for C6 at `now = 10`: a claim expiring at 9 is expired. -/
theorem claims_is_expired_exact_boundary_witness :
    (Claims.new 0 RUserRole.User 9).is_expired 10 = true :=
  claims_is_expired_exact_boundary.2.1 0 RUserRole.User 10 (by decide)

/-- C7: for every valid permission value `p`,
`from_bits_checked(p.as_u32()) = Some(p)`, and serializing `p` to its
numeric wire form and deserializing it back is the identity. -/
theorem permissions_round_trip (p : Permissions) (h : p.Valid) :
    Permissions.from_bits_checked p.as_u32 = some p ∧
    deserialize_number (Int.ofNat p.serialize) = Except.ok p := by
  obtain ⟨b⟩ := p
  have hb : b &&& Permissions.all.bits = b := h
  have hble : b ≤ 4095 := valid_bits_le ⟨b⟩ h
  have hlt : b < 4294967296 := by omega
  constructor
  · show Permissions.from_bits b = some ⟨b⟩
    rw [Permissions.from_bits, if_pos hb]
  · show (if 0 ≤ Int.ofNat b then visit_u64 (Int.ofNat b).toNat
        else visit_i64 (Int.ofNat b)) = Except.ok ⟨b⟩
    split
    · show visit_u64 b = Except.ok ⟨b⟩
      unfold visit_u64
      rw [Nat.mod_eq_of_lt hlt]
      unfold Permissions.from_bits
      rw [if_pos hb]
    · rename_i hn
      exact absurd (Int.ofNat_zero_le b) hn

/-- Witness for C7 at `p = READ | WRITE` (bits 3). -/
theorem permissions_round_trip_witness :
    Permissions.from_bits_checked (Permissions.mk 3).as_u32 =
      some (Permissions.mk 3) ∧
    deserialize_number (Int.ofNat (Permissions.mk 3).serialize) =
      Except.ok (Permissions.mk 3) :=
  permissions_round_trip ⟨3⟩ (by decide)

/-- C8: `from_bits_truncating` is idempotent on every `u32` input, the
all-bits sentinel truncates to `all()`, and the same sentinel fails the
checked constructor. -/
theorem from_bits_truncating_idempotent :
    (∀ x : Nat, x < 4294967296 →
        Permissions.from_bits_truncating
            (Permissions.from_bits_truncating x).as_u32 =
          Permissions.from_bits_truncating x) ∧
    Permissions.from_bits_truncating 0xFFFFFFFF = Permissions.all ∧
    Permissions.from_bits_checked 0xFFFFFFFF = none := by
  refine ⟨fun x _ => ?_, by decide, by decide⟩
  unfold Permissions.from_bits_truncating Permissions.from_bits_truncate
    Permissions.as_u32
  rw [Nat.and_assoc, Nat.and_self]

/-- Witness for C8 at the sentinel input `0xFFFFFFFF`. -/
theorem from_bits_truncating_idempotent_witness :
    Permissions.from_bits_truncating
        (Permissions.from_bits_truncating 0xFFFFFFFF).as_u32 =
      Permissions.from_bits_truncating 0xFFFFFFFF :=
  from_bits_truncating_idempotent.1 0xFFFFFFFF (by decide)

/-- C5 counterexample: `4294967296` (only bit 32 set, a bit outside the
named set) is a non-negative number, yet numeric deserialization succeeds
with `empty` instead of failing — the `value as u32` cast drops the high
bits before validation. -/
theorem deserialize_high_bit_accepted :
    ¬ ((4294967296 : Nat) &&& Permissions.all.bits = 4294967296) ∧
    deserialize_number (Int.ofNat 4294967296) =
      Except.ok Permissions.empty := by
  exact ⟨by decide, rfl⟩

/-- C5 (amended): numeric deserialization — negative numbers fail with the
negative-value error; non-negative numbers below 2^32 with a bit outside
the named set fail with the invalid-bits error naming the value (so in
particular `4294967295`); the two error messages are distinguishable; and
non-negative numbers whose bits all lie in the named set succeed with
exactly those bits.  Values at or above 2^32 are first truncated by the
`as u32` cast (see the counterexample), hence the bound. -/
theorem deserialize_numeric_spec :
    (∀ n : Int, n < 0 →
        deserialize_number n =
          Except.error "permissions cannot be negative") ∧
    (deserialize_number (-1) =
        Except.error "permissions cannot be negative") ∧
    (∀ n : Nat, n < 4294967296 → ¬ (n &&& Permissions.all.bits = n) →
        deserialize_number (Int.ofNat n) =
          Except.error ("invalid permission bits: " ++ toString n)) ∧
    (deserialize_number (Int.ofNat 4294967295) =
        Except.error "invalid permission bits: 4294967295") ∧
    ("invalid permission bits: 4294967295" ≠
        "permissions cannot be negative") ∧
    (∀ n : Nat, n &&& Permissions.all.bits = n →
        deserialize_number (Int.ofNat n) = Except.ok ⟨n⟩) := by
  refine ⟨fun n h => ?_, rfl, fun n h1 h2 => ?_, rfl, by decide,
    fun n h => ?_⟩
  · unfold deserialize_number
    rw [if_neg (by omega)]
    unfold visit_i64
    rw [if_pos h]
  · unfold deserialize_number
    split
    · show visit_u64 n = _
      unfold visit_u64
      rw [Nat.mod_eq_of_lt h1]
      unfold Permissions.from_bits
      rw [if_neg h2]
    · rename_i hn
      exact absurd (Int.ofNat_zero_le n) hn
  · have hnle : n ≤ 4095 := valid_bits_le ⟨n⟩ h
    have h1 : n < 4294967296 := by omega
    unfold deserialize_number
    split
    · show visit_u64 n = _
      unfold visit_u64
      rw [Nat.mod_eq_of_lt h1]
      unfold Permissions.from_bits
      rw [if_pos h]
    · rename_i hn
      exact absurd (Int.ofNat_zero_le n) hn

/-- Witness for C5 at the concrete negative input `-7`. -/
theorem deserialize_numeric_spec_witness :
    deserialize_number (-7) = Except.error "permissions cannot be negative" :=
  deserialize_numeric_spec.1 (-7) (by decide)

/-- Separator predicate of `parse_permissions`: the Rust code splits on
the character set `[',', '|']`. -/
def isPermSep (c : Char) : Bool := c == ',' || c == '|'

/-- Rust `str::split` on the separator set, over the character list:
the pieces between separator occurrences, empty pieces kept (consecutive
or trailing separators yield empty tokens, as in Rust). -/
def splitSeps : List Char → List (List Char)
  | [] => [[]]
  | c :: cs =>
    if isPermSep c then [] :: splitSeps cs
    else
      match splitSeps cs with
      | [] => [[c]]
      | t :: ts => (c :: t) :: ts

/-- Rust `str::trim`: drop whitespace from both ends (the ASCII fragment,
which is all the parser's name alphabet can meet). -/
def trimChars (cs : List Char) : List Char :=
  ((cs.dropWhile Char.isWhitespace).reverse.dropWhile Char.isWhitespace).reverse

/-- Rust `str::to_lowercase` on the ASCII range. -/
def lowerChars (cs : List Char) : List Char := cs.map Char.toLower

/-- The per-token normalization inside the parse loop:
`part.trim().to_lowercase()`. -/
def normToken (part : List Char) : List Char := lowerChars (trimChars part)

/-- The 12-name match of `parse_permissions` (the `""` arm of the Rust
match is handled by the caller of this table). -/
def permFromName (name : List Char) : Option Permissions :=
  if name = "read".data then some Permissions.READ
  else if name = "write".data then some Permissions.WRITE
  else if name = "delete".data then some Permissions.DELETE
  else if name = "admin".data then some Permissions.ADMIN
  else if name = "manage_users".data then some Permissions.MANAGE_USERS
  else if name = "manage_roles".data then some Permissions.MANAGE_ROLES
  else if name = "billing".data then some Permissions.BILLING
  else if name = "audit".data then some Permissions.AUDIT
  else if name = "export".data then some Permissions.EXPORT
  else if name = "import".data then some Permissions.IMPORT
  else if name = "api_access".data then some Permissions.API_ACCESS
  else if name = "premium".data then some Permissions.PREMIUM
  else none

/-- The loop of `parse_permissions`: normalize each part, skip empty
tokens (`"" => continue`), OR each recognized constant into the
accumulator, and fail on the first unknown token, naming it. -/
def parsePermList : List (List Char) → Permissions → Except String Permissions
  | [], result => Except.ok result
  | part :: rest, result =>
    if normToken part = [] then parsePermList rest result
    else
      match permFromName (normToken part) with
      | some perm => parsePermList rest (result.or perm)
      | none =>
          Except.error ("unknown permission: " ++ String.mk (normToken part))

/-- `parse_permissions` of `src/permissions.rs`, over the input string's
character list. -/
def parse_permissions (s : String) : Except String Permissions :=
  parsePermList (splitSeps s.data) Permissions.empty

/-- The parser's failure condition on one part: its normalized form is
non-empty and matches none of the 12 names. -/
def badToken (part : List Char) : Prop :=
  normToken part ≠ [] ∧ permFromName (normToken part) = none

/-- Every error of the parse loop names the offending normalized token:
it is non-empty and matches none of the 12 names. -/
theorem parsePermList_error_names_token (parts : List (List Char))
    (acc : Permissions) (t : String)
    (h : parsePermList parts acc = Except.error t) :
    ∃ tok, t = "unknown permission: " ++ String.mk tok ∧ tok ≠ [] ∧
      permFromName tok = none := by
  induction parts generalizing acc with
  | nil => simp [parsePermList] at h
  | cons part rest ih =>
    unfold parsePermList at h
    by_cases he : normToken part = []
    · rw [if_pos he] at h
      exact ih _ h
    · rw [if_neg he] at h
      cases hp : permFromName (normToken part) with
      | some perm =>
        rw [hp] at h
        exact ih _ h
      | none =>
        rw [hp] at h
        exact ⟨normToken part, (Except.error.inj h).symm, he, hp⟩

/-- If some part of the list is a bad token, the parse loop fails. -/
theorem parsePermList_error_of_bad (parts : List (List Char))
    (acc : Permissions) (h : ∃ part ∈ parts, badToken part) :
    ∃ t, parsePermList parts acc = Except.error t := by
  induction parts generalizing acc with
  | nil => simp at h
  | cons part rest ih =>
    obtain ⟨q, hq, hbad⟩ := h
    by_cases he : normToken part = []
    · have hq' : q ∈ rest := by
        rcases List.mem_cons.mp hq with hqe | hq'
        · subst hqe
          exact absurd he hbad.1
        · exact hq'
      obtain ⟨t, ht⟩ := ih acc ⟨q, hq', hbad⟩
      refine ⟨t, ?_⟩
      unfold parsePermList
      rw [if_pos he]
      exact ht
    · cases hp : permFromName (normToken part) with
      | none =>
        refine ⟨"unknown permission: " ++ String.mk (normToken part), ?_⟩
        unfold parsePermList
        rw [if_neg he, hp]
      | some perm =>
        have hq' : q ∈ rest := by
          rcases List.mem_cons.mp hq with hqe | hq'
          · subst hqe
            have hb2 : permFromName (normToken q) = none := hbad.2
            rw [hp] at hb2
            cases hb2
          · exact hq'
        obtain ⟨t, ht⟩ := ih (acc.or perm) ⟨q, hq', hbad⟩
        refine ⟨t, ?_⟩
        unfold parsePermList
        rw [if_neg he, hp]
        exact ht

/-- C4: `parse_permissions` splits on `,` and `|`, trims and lower-cases
each token, skips empty tokens (so `"read,,write"` and trailing
separators are tolerated), ORs the recognized constants — `"read, write"`
and `"READ | WRITE"` both give `READ | WRITE` (bits 3), and it fails
naming the offending normalized token exactly when some token is
non-empty and matches none of the 12 names. -/
theorem parse_permissions_spec :
    parse_permissions "read, write" =
      Except.ok (Permissions.READ.or Permissions.WRITE) ∧
    (Permissions.READ.or Permissions.WRITE).bits = 3 ∧
    parse_permissions "READ | WRITE" =
      Except.ok (Permissions.READ.or Permissions.WRITE) ∧
    parse_permissions "read,,write" =
      Except.ok (Permissions.READ.or Permissions.WRITE) ∧
    parse_permissions "read,write," =
      Except.ok (Permissions.READ.or Permissions.WRITE) ∧
    parse_permissions "bogus" = Except.error "unknown permission: bogus" ∧
    (∀ (s : String) (t : String),
      parse_permissions s = Except.error t →
      ∃ tok, t = "unknown permission: " ++ String.mk tok ∧ tok ≠ [] ∧
        permFromName tok = none) ∧
    (∀ s : String, (∃ part ∈ splitSeps s.data, badToken part) →
      ∃ t, parse_permissions s = Except.error t) := by
  refine ⟨rfl, rfl, rfl, rfl, rfl, rfl,
    fun s t h => parsePermList_error_names_token _ _ _ h,
    fun s h => parsePermList_error_of_bad _ _ h⟩

/-- Witness for C4: instantiating the error characterization at the
input `"bogus"`. -/
theorem parse_permissions_spec_witness :
    ∃ tok, "unknown permission: bogus" =
        "unknown permission: " ++ String.mk tok ∧ tok ≠ [] ∧
      permFromName tok = none :=
  parse_permissions_spec.2.2.2.2.2.2.1 "bogus" "unknown permission: bogus" rfl
